import Mathlib

/-!
Verification development for the AI Umpire video-analysis service.

The definitions below are a shallow embedding of the repository's
JavaScript source: the decision-text extractors (`extractConfidenceLevel`,
`extractFinalCall` from `umpireAgent.js`), the sports-rules lookup
(`getRulesForSport` from `sportsRules.js`), and the four-stage analysis
pipeline (`UmpireAgent.processVideo`) with its decision cache and frame
cleanup, modelled with explicit state passing and an oracle record
(`PipelineEnv`) standing for the external model and media collaborators.
Effects that the claims talk about (number of external model calls, number
of media-extraction calls, which frame directories were cleaned up) are
tracked in an explicit `Effects` record.
-/

/-! ### String helpers (JS `String.prototype.includes`, `toUpperCase`,
`toLowerCase`, and node's `path.basename` / `path.dirname`) -/

/-- Character-list prefix test, used to implement substring search. -/
def isPrefixOfChars : List Char → List Char → Bool
  | [], _ => true
  | _ :: _, [] => false
  | a :: as, b :: bs => a == b && isPrefixOfChars as bs

/-- `containsSubChars pat l` holds when `pat` occurs contiguously in `l`
(the semantics of JS `l.includes(pat)`). -/
def containsSubChars (pat : List Char) : List Char → Bool
  | [] => isPrefixOfChars pat []
  | c :: rest => isPrefixOfChars pat (c :: rest) || containsSubChars pat rest

/-- JS `s.includes(pat)`. -/
def strContains (s pat : String) : Bool :=
  containsSubChars pat.data s.data

/-- JS `s.toUpperCase()` (ASCII, as used by the extractors). -/
def strToUpper (s : String) : String :=
  String.mk (s.data.map Char.toUpper)

/-- JS `s.toLowerCase()` (ASCII, as used by the extractors). -/
def strToLower (s : String) : String :=
  String.mk (s.data.map Char.toLower)

/-- Node `path.basename p`: the component after the last `/`. -/
def baseName (p : String) : String :=
  String.mk ((p.data.reverse.takeWhile (fun c => c ≠ '/')).reverse)

/-- Node `path.dirname p` for the relative slash-containing paths the
pipeline produces: everything before the last `/` (`"."` when there is no
separator). -/
def dirName (p : String) : String :=
  if p.data.contains '/' then
    String.mk (((p.data.reverse.dropWhile (fun c => c ≠ '/')).drop 1).reverse)
  else "."

/-! ### Decision-text extraction (`umpireAgent.js`,
`extractConfidenceLevel` lines 529-539 and `extractFinalCall`
lines 544-575) -/

/-- `UmpireAgent.extractConfidenceLevel`: lowercase the decision text,
then test the high/medium/low patterns in that order; default `"Medium"`. -/
def extractConfidenceLevel (decisionText : String) : String :=
  let text := strToLower decisionText
  if strContains text "high confidence" || strContains text "confidence: high" then
    "High"
  else if strContains text "medium confidence" || strContains text "confidence: medium" then
    "Medium"
  else if strContains text "low confidence" || strContains text "confidence: low" then
    "Low"
  else
    "Medium"

/-- The fixed priority-ordered token list scanned by
`UmpireAgent.extractFinalCall` (its local `decisions` array). -/
def decisionsList : List String :=
  ["NOT OUT", "OUT",
   "NO GOAL", "GOAL",
   "NO FOUL", "FOUL",
   "NO SCORE", "SCORE",
   "INVALID", "VALID",
   "ILLEGAL", "LEGAL",
   "FAULT", "LET", "PENALTY", "FREE KICK"]

/-- `UmpireAgent.extractFinalCall`: uppercase the text; for cricket check
`"NOT OUT"` then `"OUT"`; otherwise (including cricket text matching
neither) scan `decisionsList` and return the first token contained in the
text, falling back to the sentinel `"DECISION REQUIRED"`. -/
def extractFinalCall (decisionText sport : String) : String :=
  let text := strToUpper decisionText
  if sport == "cricket" && strContains text "NOT OUT" then
    "NOT OUT"
  else if sport == "cricket" && strContains text "OUT" then
    "OUT"
  else
    match decisionsList.find? (fun d => strContains text d) with
    | some d => d
    | none => "DECISION REQUIRED"

/-! ### Sports rules database (`src/sportsRules.js`) -/

/-- A sport's profile: display name and its enumerated valid decision
tokens (the `name` and `decisions` fields of the `sportsRules` entries). -/
structure SportProfile where
  name : String
  decisions : List String
deriving DecidableEq

/-- `sportsRules.cricket`. -/
def cricketRules : SportProfile :=
  ⟨"Cricket", ["OUT", "NOT OUT", "WIDE", "NO BALL", "SIX", "FOUR"]⟩

/-- `sportsRules.football`. -/
def footballRules : SportProfile :=
  ⟨"Football/Soccer", ["GOAL", "NO GOAL", "OFFSIDE", "FOUL", "PENALTY", "CORNER", "THROW-IN"]⟩

/-- `sportsRules.tennis`. -/
def tennisRules : SportProfile :=
  ⟨"Tennis", ["IN", "OUT", "FAULT", "ACE", "LET", "WINNER"]⟩

/-- `sportsRules.basketball`. -/
def basketballRules : SportProfile :=
  ⟨"Basketball", ["SCORE", "FOUL", "VIOLATION", "OUT OF BOUNDS", "SHOT CLOCK", "THREE POINTER"]⟩

/-- `sportsRules.general`. -/
def generalRules : SportProfile :=
  ⟨"General Sports", ["VALID", "INVALID", "FOUL", "LEGAL", "ILLEGAL"]⟩

/-- The `sportsRules` object of `src/sportsRules.js`, as an association
list in declaration order. -/
def sportsRules : List (String × SportProfile) :=
  [("cricket", cricketRules),
   ("football", footballRules),
   ("tennis", tennisRules),
   ("basketball", basketballRules),
   ("general", generalRules)]

/-- `getRulesForSport` (`src/sportsRules.js` lines 97-100): lowercase the
sport identifier, look it up among the keys, fall back to the general
profile. -/
def getRulesForSport (sport : String) : SportProfile :=
  match sportsRules.find? (fun kv => kv.1 == strToLower sport) with
  | some kv => kv.2
  | none => generalRules

deriving instance DecidableEq for Except

/-! ### Pipeline embedding (`umpireAgent.js` and `videoProcessor.js`) -/

/-- Video metadata as produced by `VideoProcessor.getVideoMetadata`
(the fields the pipeline reads downstream). -/
structure VideoMetadata where
  duration : Nat
  width : Nat
  height : Nat
  hasAudio : Bool
deriving DecidableEq

/-- The structured decision record returned by
`UmpireAgent.generateLiveDecision` (`umpireAgent.js` lines 509-518),
without the wall-clock timestamp field. -/
structure Decision where
  sport : String
  videoDuration : Nat
  decision : String
  processedAsFullVideo : Bool
  hasAudio : Bool
  confidence : String
  finalCall : String
deriving DecidableEq

/-- One entry of the `analyses` array built by
`UmpireAgent.analyzeFramesWithVision`: frame index (1-based), analysis
text, and the caught error message when the frame's analysis failed. -/
structure FrameAnalysis where
  frameNumber : Nat
  analysis : String
  err : Option String
deriving DecidableEq

/-- Observable effects of one pipeline invocation: number of external
model calls, number of media-extraction calls (frame extraction and
frame-file reads), and the frame directories passed to `fs.remove` by
`VideoProcessor.cleanupFrames`. -/
structure Effects where
  modelCalls : Nat
  extractionCalls : Nat
  cleanedFrameDirs : List String
deriving DecidableEq

/-- No effects. -/
def Effects.zero : Effects := ⟨0, 0, []⟩

/-- Accumulate effects of two successive steps. -/
def Effects.add (a b : Effects) : Effects :=
  ⟨a.modelCalls + b.modelCalls,
   a.extractionCalls + b.extractionCalls,
   a.cleanedFrameDirs ++ b.cleanedFrameDirs⟩

/-- Oracle record standing for the external collaborators: the media
extractor (`VideoProcessor`) and the four generative-model roles. Each
fallible call returns `Except` (a JS rejection becomes `.error`). -/
structure PipelineEnv where
  getVideoMetadata : String → Except String VideoMetadata
  readVideoBase64 : String → Except String String
  extractKeyFrames : String → Except String (List String)
  frameToBase64 : String → Except String String
  visionModelCall : String → Except String String
  videoModelCall : String → String → Except String String
  multimodalModelCall : String → String → String → Except String String
  liveModelCall : String → String → Except String String

/-- `VideoProcessor.cleanupFrames` (`videoProcessor.js` lines 289-300):
for each frame path, remove its directory when the directory path
mentions `temp`; the result lists the removed directories in loop order. -/
def cleanupFrames (framePaths : List String) : List String :=
  (framePaths.map dirName).filter (fun d => strContains d "temp")

/-- One iteration of the loop in `UmpireAgent.analyzeFramesWithVision`
(`umpireAgent.js` lines 348-402): read the frame, call the vision model;
a failure of either step is caught locally and recorded as a
`"Frame analysis failed"` placeholder for that index. -/
def analyzeOneFrame (env : PipelineEnv) (framePath : String) (frameNumber : Nat) :
    FrameAnalysis × Effects :=
  match env.frameToBase64 framePath with
  | .error e => (⟨frameNumber, "Frame analysis failed", some e⟩, ⟨0, 1, []⟩)
  | .ok b64 =>
    match env.visionModelCall b64 with
    | .error e => (⟨frameNumber, "Frame analysis failed", some e⟩, ⟨1, 1, []⟩)
    | .ok a => (⟨frameNumber, a, none⟩, ⟨1, 1, []⟩)

/-- The sequential frame loop, carrying the 0-based loop counter `i`
(the produced frame numbers are `i + 1`, as in the source). -/
def analyzeFramesAux (env : PipelineEnv) : List String → Nat → List FrameAnalysis × Effects
  | [], _ => ([], Effects.zero)
  | p :: rest, i =>
    let fa := analyzeOneFrame env p (i + 1)
    let tail := analyzeFramesAux env rest (i + 1)
    (fa.1 :: tail.1, Effects.add fa.2 tail.2)

/-- `UmpireAgent.analyzeFramesWithVision`: one result per frame, in input
order, never failing as a whole. -/
def analyzeFramesWithVision (env : PipelineEnv) (framePaths : List String) :
    List FrameAnalysis × Effects :=
  analyzeFramesAux env framePaths 0

/-- The `framesSummary` string built in
`UmpireAgent.applyRulesWithMultimodal` (`umpireAgent.js` lines 414-416):
`"Frame N: <text>"` blocks joined by blank lines, in list order. -/
def framesSummary (visionAnalyses : List FrameAnalysis) : String :=
  String.intercalate "\n\n"
    (visionAnalyses.map (fun f => "Frame " ++ toString f.frameNumber ++ ": " ++ f.analysis))

/-- `UmpireAgent.generateLiveDecision` (`umpireAgent.js` lines 463-524):
one live-model call, then the decision record is assembled from the
returned text via the two extractors. -/
def generateLiveDecision (env : PipelineEnv) (multimodalAnalysis sport : String)
    (metadata : VideoMetadata) : Except String Decision × Effects :=
  match env.liveModelCall multimodalAnalysis sport with
  | .error e => (.error e, ⟨1, 0, []⟩)
  | .ok decisionText =>
    (.ok { sport := sport
           videoDuration := metadata.duration
           decision := decisionText
           processedAsFullVideo := true
           hasAudio := metadata.hasAudio
           confidence := extractConfidenceLevel decisionText
           finalCall := extractFinalCall decisionText sport },
     ⟨1, 0, []⟩)

/-- The stage sequence of `UmpireAgent.processVideo` after the cache
check (`umpireAgent.js` lines 205-253): metadata, video read, key-frame
extraction, per-frame vision analysis, whole-video model call,
multimodal rule synthesis, final live decision. `cleanupFrames` runs
only on the success path (line 236, inside the `try`); the `catch` block
rethrows without cleaning up, which the `cleanedFrameDirs` effect
records. -/
def runPipelineStages (env : PipelineEnv) (videoPath sport : String) :
    Except String Decision × Effects :=
  match env.getVideoMetadata videoPath with
  | .error e => (.error e, Effects.zero)
  | .ok metadata =>
    match env.readVideoBase64 videoPath with
    | .error e => (.error e, Effects.zero)
    | .ok videoData =>
      match env.extractKeyFrames videoPath with
      | .error e => (.error e, ⟨0, 1, []⟩)
      | .ok framePaths =>
        let va := analyzeFramesWithVision env framePaths
        let eff1 := Effects.add ⟨0, 1, []⟩ va.2
        match env.videoModelCall videoData sport with
        | .error e => (.error e, Effects.add eff1 ⟨1, 0, []⟩)
        | .ok videoAnalysis =>
          let eff2 := Effects.add eff1 ⟨1, 0, []⟩
          match env.multimodalModelCall (framesSummary va.1) videoAnalysis sport with
          | .error e => (.error e, Effects.add eff2 ⟨1, 0, []⟩)
          | .ok multi =>
            let eff3 := Effects.add eff2 ⟨1, 0, []⟩
            match generateLiveDecision env multi sport metadata with
            | (.error e, eff4) => (.error e, Effects.add eff3 eff4)
            | (.ok d, eff4) =>
              (.ok d, Effects.add (Effects.add eff3 eff4) ⟨0, 0, cleanupFrames framePaths⟩)

/-- The cache key of `UmpireAgent.processVideo` line 197:
`` `${path.basename(videoPath)}_${sport}` ``. -/
def cacheKey (videoPath sport : String) : String :=
  baseName videoPath ++ "_" ++ sport

/-- Lookup in the `analysisCache` map (modelled as an association list
with most recent writes at the front). -/
def lookupCache (cache : List (String × Decision)) (k : String) : Option Decision :=
  match cache.find? (fun kv => kv.1 == k) with
  | some kv => some kv.2
  | none => none

/-- `UmpireAgent.processVideo` (`umpireAgent.js` lines 193-253): check
the cache before any stage runs; on a hit return the cached decision with
no external calls; otherwise run the stages and, on success only, write
the decision to the cache. Returns the result, the updated cache, and
the effects of this invocation. -/
def processVideo (env : PipelineEnv) (cache : List (String × Decision))
    (videoPath sport : String) :
    Except String Decision × List (String × Decision) × Effects :=
  let k := cacheKey videoPath sport
  match lookupCache cache k with
  | some d => (.ok d, cache, Effects.zero)
  | none =>
    match runPipelineStages env videoPath sport with
    | (.ok d, eff) => (.ok d, (k, d) :: cache, eff)
    | (.error e, eff) => (.error e, cache, eff)

/-! ### The server's module-level initialization (`server.js` and the
`UmpireAgent` constructor) -/

/-- The agent's state after a successful construction. -/
structure AgentState where
  geminiKey : String
deriving DecidableEq

/-- The `UmpireAgent` constructor (`umpireAgent.js` lines 136-139):
throws when `GEMINI_API_KEY` is absent. -/
def mkUmpireAgent (geminiKey : Option String) : Except String AgentState :=
  match geminiKey with
  | none => .error "GEMINI_API_KEY environment variable is required"
  | some k => .ok ⟨k⟩

/-- The running server: the module-level agent plus the registered
routes' view of the configuration. -/
structure ServerState where
  agent : AgentState
  geminiConfigured : Bool
deriving DecidableEq

/-- Module-level startup of `server.js`: `new UmpireAgent()` runs at
line 46, at import time, before any route (including `/api/health`) can
be served; a constructor throw aborts startup. -/
def startServer (geminiKey : Option String) : Except String ServerState :=
  match mkUmpireAgent geminiKey with
  | .error e => .error e
  | .ok a => .ok ⟨a, geminiKey.isSome⟩

/-- The `GET /api/health` handler (`server.js` lines 96-102), available
only once a `ServerState` exists. -/
def healthCheck (s : ServerState) : String × Bool :=
  ("healthy", s.geminiConfigured)

/-- Case-insensitive pattern containment: the pattern is searched in the
lowercased text, so any letter case of the input matches. -/
def containsCaseless (t pat : String) : Bool :=
  strContains (strToLower t) pat

/-- `ascFrom s n = [s + 1, s + 2, ..., s + n]`: the ascending run of
frame indices produced by the Stage 1 loop when the counter starts at
`s`. -/
def ascFrom : Nat → Nat → List Nat
  | _, 0 => []
  | s, n + 1 => (s + 1) :: ascFrom (s + 1) n

/-! ### Concrete oracle instances used to evaluate the pipeline -/

/-- A concrete key-frame set inside the temporary directory, as produced
by `VideoProcessor.extractKeyFrames`. -/
def demoFramePaths : List String :=
  ["temp/keyframes_a/k1.jpg", "temp/keyframes_a/k2.jpg"]

/-- An oracle on which every collaborator call succeeds. -/
def demoEnv : PipelineEnv where
  getVideoMetadata := fun _ => .ok ⟨5, 1280, 720, true⟩
  readVideoBase64 := fun _ => .ok "VIDEODATA"
  extractKeyFrames := fun _ => .ok demoFramePaths
  frameToBase64 := fun p => .ok ("IMG:" ++ p)
  visionModelCall := fun b => .ok ("seen " ++ b)
  videoModelCall := fun _ _ => .ok "complete video analysis"
  multimodalModelCall := fun _ _ _ => .ok "combined synthesis"
  liveModelCall := fun _ _ => .ok "DECISION: OUT. CONFIDENCE: HIGH"

/-- The same oracle except that the whole-video model call (Stage 2)
fails. -/
def demoEnvVideoFail : PipelineEnv :=
  { demoEnv with videoModelCall := fun _ _ => .error "video model unavailable" }

/-- The same oracle except that reading the first frame file fails, so
that frame's vision analysis fails locally. -/
def demoEnvFrameFail : PipelineEnv :=
  { demoEnv with
    frameToBase64 := fun p =>
      if p == "temp/keyframes_a/k1.jpg" then .error "frame read failure"
      else .ok ("IMG:" ++ p) }

/-- The decision produced by `demoEnv` for a cricket request. -/
def demoDecision : Decision :=
  { sport := "cricket"
    videoDuration := 5
    decision := "DECISION: OUT. CONFIDENCE: HIGH"
    processedAsFullVideo := true
    hasAudio := true
    confidence := "High"
    finalCall := "OUT" }

/-- The cache contents after the first successful `demoEnv` run. -/
def demoCache : List (String × Decision) :=
  [("video-1.mp4_cricket", demoDecision)]

/-- The effects of the first (uncached) successful `demoEnv` run: five
model calls, three media-extraction calls, and the cleanup of the
key-frame directory (once per frame, as the source loop does). -/
def demoEffects : Effects :=
  ⟨5, 3, ["temp/keyframes_a", "temp/keyframes_a"]⟩

/-! ### Theorems -/

/-- C4: for every decision text whose uppercased form contains both
`"OUT"` and `"NOT OUT"`, final-call extraction for sport `"cricket"`
returns `"NOT OUT"` (the longer, more specific token is matched first),
never `"OUT"`. -/
theorem claim4_notout_before_out (t : String)
    (h1 : strContains (strToUpper t) "OUT" = true)
    (h2 : strContains (strToUpper t) "NOT OUT" = true) :
    extractFinalCall t "cricket" = "NOT OUT" := by
  simp [extractFinalCall, h2]

/-- C4 witness: a concrete text containing both tokens yields
`"NOT OUT"`. -/
theorem claim4_witness :
    strContains (strToUpper "Not out, he is NOT OUT rather than out") "OUT" = true ∧
    strContains (strToUpper "Not out, he is NOT OUT rather than out") "NOT OUT" = true ∧
    extractFinalCall "Not out, he is NOT OUT rather than out" "cricket" = "NOT OUT" :=
  ⟨by decide, by decide,
   claim4_notout_before_out "Not out, he is NOT OUT rather than out" (by decide) (by decide)⟩

/-- C10: final-call token matching is raw substring matching with no
word-boundary check: for sport `"cricket"`, any text whose uppercased
form contains `"OUT"` (for example only inside `"WITHOUT"`) but not
`"NOT OUT"` is classified `"OUT"` rather than falling to the sentinel. -/
theorem claim10_substring_no_word_boundary (t : String)
    (h1 : strContains (strToUpper t) "OUT" = true)
    (h2 : strContains (strToUpper t) "NOT OUT" = false) :
    extractFinalCall t "cricket" = "OUT" := by
  simp [extractFinalCall, h1, h2]

/-- C10 witness: `"OUT"` occurs only inside `"WITHOUT"` and `"DOUBT"`
yet the extractor returns `"OUT"`. -/
theorem claim10_witness :
    strContains (strToUpper "Without doubt a clean delivery") "OUT" = true ∧
    strContains (strToUpper "Without doubt a clean delivery") "NOT OUT" = false ∧
    extractFinalCall "Without doubt a clean delivery" "cricket" = "OUT" :=
  ⟨by decide, by decide,
   claim10_substring_no_word_boundary "Without doubt a clean delivery" (by decide) (by decide)⟩

/-- C8: for every decision text whose uppercased form contains none of
the sixteen known decision tokens, final-call extraction returns exactly
the sentinel `"DECISION REQUIRED"`, for every sport. -/
theorem claim8_sentinel_when_no_token (t sport : String)
    (h : ∀ d ∈ decisionsList, strContains (strToUpper t) d = false) :
    extractFinalCall t sport = "DECISION REQUIRED" := by
  have hno : strContains (strToUpper t) "NOT OUT" = false := h _ (by decide)
  have ho : strContains (strToUpper t) "OUT" = false := h _ (by decide)
  have hfind : decisionsList.find? (fun d => strContains (strToUpper t) d) = none := by
    rw [List.find?_eq_none]
    intro x hx
    simp [h x hx]
  simp [extractFinalCall, hno, ho, hfind]

/-- C8 witness: a tokenless text yields the sentinel (here for sport
`"tennis"`). -/
theorem claim8_witness :
    (∀ d ∈ decisionsList, strContains (strToUpper "an unremarkable maiden over") d = false) ∧
    extractFinalCall "an unremarkable maiden over" "tennis" = "DECISION REQUIRED" :=
  ⟨by decide, claim8_sentinel_when_no_token "an unremarkable maiden over" "tennis" (by decide)⟩

/-- C7: confidence extraction is case-insensitive and total: a text
containing `"high confidence"` or `"confidence: high"` in any letter
case yields `"High"`; otherwise the medium patterns yield `"Medium"`,
otherwise the low patterns yield `"Low"`; with no pattern the result
defaults to `"Medium"`; and for every text the result is one of
`{"High", "Medium", "Low"}`. -/
theorem claim7_confidence_extraction (t : String) :
    extractConfidenceLevel t ∈ ["High", "Medium", "Low"] ∧
    ((containsCaseless t "high confidence" || containsCaseless t "confidence: high") = true →
      extractConfidenceLevel t = "High") ∧
    ((containsCaseless t "high confidence" || containsCaseless t "confidence: high") = false →
      (containsCaseless t "medium confidence" || containsCaseless t "confidence: medium") = true →
      extractConfidenceLevel t = "Medium") ∧
    ((containsCaseless t "high confidence" || containsCaseless t "confidence: high") = false →
      (containsCaseless t "medium confidence" || containsCaseless t "confidence: medium") = false →
      (containsCaseless t "low confidence" || containsCaseless t "confidence: low") = true →
      extractConfidenceLevel t = "Low") ∧
    ((containsCaseless t "high confidence" || containsCaseless t "confidence: high") = false →
      (containsCaseless t "medium confidence" || containsCaseless t "confidence: medium") = false →
      (containsCaseless t "low confidence" || containsCaseless t "confidence: low") = false →
      extractConfidenceLevel t = "Medium") := by
  have hmem : extractConfidenceLevel t ∈ ["High", "Medium", "Low"] := by
    simp only [extractConfidenceLevel]
    split_ifs <;> decide
  refine ⟨hmem, ?_, ?_, ?_, ?_⟩ <;>
    · unfold containsCaseless
      intros
      simp_all [extractConfidenceLevel]

/-- C7 witness: `"Confidence: HIGH"` yields `"High"` through the
high-pattern clause. -/
theorem claim7_witness :
    (containsCaseless "Confidence: HIGH" "high confidence" ||
      containsCaseless "Confidence: HIGH" "confidence: high") = true ∧
    extractConfidenceLevel "Confidence: HIGH" = "High" :=
  ⟨by decide, (claim7_confidence_extraction "Confidence: HIGH").2.1 (by decide)⟩

/-- C2 counterexample: the claim says cricket extraction always lands in
`{"OUT", "NOT OUT", "DECISION REQUIRED"}`, but the text `"GOAL"` (which
contains no occurrence of `"OUT"`) falls through to the shared token
list and returns football's `"GOAL"`. -/
theorem claim2_counterexample :
    extractFinalCall "GOAL" "cricket" = "GOAL" ∧
    "GOAL" ∉ (["OUT", "NOT OUT", "DECISION REQUIRED"] : List String) := by
  constructor
  · decide
  · decide

/-- C2 amended: for sport `"cricket"` the extraction always returns the
sentinel or a token of the shared priority list (which also holds other
sports' tokens); it is guaranteed to return a cricket token (`"NOT OUT"`
or `"OUT"`) only when the uppercased text contains `"OUT"`. -/
theorem claim2_amended_cricket_range (t : String) :
    extractFinalCall t "cricket" ∈ "DECISION REQUIRED" :: decisionsList ∧
    (strContains (strToUpper t) "OUT" = true →
      extractFinalCall t "cricket" = "NOT OUT" ∨ extractFinalCall t "cricket" = "OUT") := by
  constructor
  · simp only [extractFinalCall]
    split
    · decide
    · split
      · decide
      · split
        next d hd =>
          exact List.mem_cons_of_mem _ (List.mem_of_find?_eq_some hd)
        next => decide
  · intro h
    by_cases hn : strContains (strToUpper t) "NOT OUT" = true
    · left; simp [extractFinalCall, hn]
    · right
      simp only [Bool.not_eq_true] at hn
      simp [extractFinalCall, h, hn]

/-- C2 amended witness: for the text `"OUT!"` the extraction indeed
returns a cricket token. -/
theorem claim2_amended_witness :
    strContains (strToUpper "OUT!") "OUT" = true ∧
    (extractFinalCall "OUT!" "cricket" = "NOT OUT" ∨ extractFinalCall "OUT!" "cricket" = "OUT") :=
  ⟨by decide, (claim2_amended_cricket_range "OUT!").2 (by decide)⟩

/-- C6: the rules lookup is total: for every sport identifier the result
is one of the five declared profiles, and whenever the lowercased
identifier is not a known sport key the result is exactly the
`"general"` profile — the lookup never fails and never returns an absent
value. -/
theorem claim6_rules_lookup_total (sport : String) :
    getRulesForSport sport ∈
      [cricketRules, footballRules, tennisRules, basketballRules, generalRules] ∧
    (strToLower sport ∉ (["cricket", "football", "tennis", "basketball", "general"] : List String) →
      getRulesForSport sport = generalRules) := by
  constructor
  · unfold getRulesForSport
    split
    next kv hkv =>
      have hmem : kv ∈ sportsRules := List.mem_of_find?_eq_some hkv
      fin_cases hmem <;> decide
    next => decide
  · intro h
    have hfind : sportsRules.find? (fun kv => kv.1 == strToLower sport) = none := by
      rw [List.find?_eq_none]
      intro kv hkv
      fin_cases hkv <;>
        · simp only [beq_iff_eq]
          intro he
          exact h (by rw [← he]; decide)
    simp [getRulesForSport, hfind]

/-- C6 witness: the unknown identifier `"Quidditch"` resolves to the
general profile. -/
theorem claim6_witness :
    strToLower "Quidditch" ∉ (["cricket", "football", "tennis", "basketball", "general"] : List String) ∧
    getRulesForSport "Quidditch" = generalRules :=
  ⟨by decide, (claim6_rules_lookup_total "Quidditch").2 (by decide)⟩

/-- C3: when the model credential is absent, the module-level
`new UmpireAgent()` throws, so server startup fails at import time with
the constructor's error and no `ServerState` is ever produced — the
health-check handler (a function of `ServerState`) therefore never gets
to respond. With the credential present, startup succeeds and the
health check responds `("healthy", true)`. -/
theorem claim3_missing_key_crashes_startup :
    startServer none = .error "GEMINI_API_KEY environment variable is required" ∧
    (∃ s : ServerState, startServer (some "key") = .ok s ∧ healthCheck s = ("healthy", true)) :=
  ⟨rfl, ⟨⟨⟨"key"⟩, true⟩, rfl, rfl⟩⟩

/-- The frame number recorded for a frame is exactly the index it was
called with, whether or not its analysis failed. -/
theorem analyzeOneFrame_frameNumber (env : PipelineEnv) (p : String) (n : Nat) :
    ((analyzeOneFrame env p n).1).frameNumber = n := by
  unfold analyzeOneFrame
  cases h1 : env.frameToBase64 p with
  | error e => rfl
  | ok b => cases h2 : env.visionModelCall b <;> simp [h2]

/-- The Stage 1 loop yields one result per frame. -/
theorem analyzeFramesAux_length (env : PipelineEnv) (ps : List String) :
    ∀ i, ((analyzeFramesAux env ps i).1).length = ps.length := by
  induction ps with
  | nil => intro i; rfl
  | cons p rest ih => intro i; simp [analyzeFramesAux, ih]

/-- The Stage 1 loop yields frame numbers in ascending order starting
one past the initial counter. -/
theorem analyzeFramesAux_frameNumbers (env : PipelineEnv) (ps : List String) :
    ∀ i, ((analyzeFramesAux env ps i).1).map FrameAnalysis.frameNumber = ascFrom i ps.length := by
  induction ps with
  | nil => intro i; rfl
  | cons p rest ih =>
    intro i
    simp [analyzeFramesAux, ascFrom, ih, analyzeOneFrame_frameNumber]

/-- Each entry of the Stage 1 result is exactly the independent analysis
of the frame at the same position. -/
theorem analyzeFramesAux_get (env : PipelineEnv) (ps : List String) :
    ∀ i j p, ps[j]? = some p →
      ((analyzeFramesAux env ps i).1)[j]? = some (analyzeOneFrame env p (i + j + 1)).1 := by
  induction ps with
  | nil => intro i j p h; simp at h
  | cons q rest ih =>
    intro i j p h
    cases j with
    | zero =>
      simp only [List.getElem?_cons_zero, Option.some.injEq] at h
      subst h
      simp [analyzeFramesAux]
    | succ j =>
      simp only [List.getElem?_cons_succ] at h
      have hrec := ih (i + 1) j p h
      have harith : i + 1 + j + 1 = i + (j + 1) + 1 := by omega
      rw [harith] at hrec
      simpa [analyzeFramesAux] using hrec

/-- C9: Stage 1 produces exactly one result per input frame; the
recorded frame numbers are `1..N` in ascending order (which is the order
in which `framesSummary` lists them for Stage 3, since it maps over the
list in order); the entry at position `j` is the independent analysis of
frame `j + 1`; and a frame whose file read or vision call fails is
recorded as the `"Frame analysis failed"` placeholder at its own index
instead of aborting the stage. -/
theorem claim9_stage1_per_frame (env : PipelineEnv) (framePaths : List String) :
    ((analyzeFramesWithVision env framePaths).1).length = framePaths.length ∧
    ((analyzeFramesWithVision env framePaths).1).map FrameAnalysis.frameNumber =
      ascFrom 0 framePaths.length ∧
    (∀ j p, framePaths[j]? = some p →
      ((analyzeFramesWithVision env framePaths).1)[j]? =
        some (analyzeOneFrame env p (j + 1)).1) ∧
    (∀ p n e, env.frameToBase64 p = .error e →
      (analyzeOneFrame env p n).1 = ⟨n, "Frame analysis failed", some e⟩) ∧
    (∀ p b n e, env.frameToBase64 p = .ok b → env.visionModelCall b = .error e →
      (analyzeOneFrame env p n).1 = ⟨n, "Frame analysis failed", some e⟩) := by
  refine ⟨analyzeFramesAux_length env framePaths 0,
          analyzeFramesAux_frameNumbers env framePaths 0,
          ?_, ?_, ?_⟩
  · intro j p h
    have := analyzeFramesAux_get env framePaths 0 j p h
    simpa using this
  · intro p n e h
    simp [analyzeOneFrame, h]
  · intro p b n e h1 h2
    simp [analyzeOneFrame, h1, h2]

/-- C9 witness: with the oracle whose first frame read fails, the entry
at position 0 is the placeholder for frame 1 while the stage still
yields both frames in order. -/
theorem claim9_witness :
    demoFramePaths[0]? = some "temp/keyframes_a/k1.jpg" ∧
    ((analyzeFramesWithVision demoEnvFrameFail demoFramePaths).1)[0]? =
      some (analyzeOneFrame demoEnvFrameFail "temp/keyframes_a/k1.jpg" 1).1 :=
  ⟨by decide,
   (claim9_stage1_per_frame demoEnvFrameFail demoFramePaths).2.2.1 0
     "temp/keyframes_a/k1.jpg" (by decide)⟩

/-- C5: within one process lifetime, once an invocation of the pipeline
has succeeded and cached its decision, a second invocation deriving the
same cache key (same uploaded-file base name and same sport identifier)
returns the identical `Decision` value with `Effects.zero`: zero external
model calls and zero media-extraction calls, because the cache is checked
before any stage runs. -/
theorem claim5_cache_idempotent (env : PipelineEnv)
    (cache cache' : List (String × Decision))
    (vp1 sport1 vp2 sport2 : String) (d : Decision) (eff : Effects)
    (hbase : baseName vp2 = baseName vp1) (hsport : sport2 = sport1)
    (h : processVideo env cache vp1 sport1 = (.ok d, cache', eff)) :
    processVideo env cache' vp2 sport2 = (.ok d, cache', Effects.zero) := by
  have hkey : cacheKey vp2 sport2 = cacheKey vp1 sport1 := by
    simp [cacheKey, hbase, hsport]
  have hlook : lookupCache cache' (cacheKey vp1 sport1) = some d := by
    simp only [processVideo] at h
    split at h
    next d0 hc =>
      simp only [Prod.mk.injEq, Except.ok.injEq] at h
      obtain ⟨hd, hc2, -⟩ := h
      subst hd
      rw [← hc2]
      exact hc
    next hc =>
      split at h
      next d1 eff1 hr =>
        simp only [Prod.mk.injEq, Except.ok.injEq] at h
        obtain ⟨hd, hc2, -⟩ := h
        subst hd
        rw [← hc2]
        simp [lookupCache, List.find?]
      next e eff1 hr =>
        simp at h
  simp only [processVideo, hkey, hlook]

/-- C5 witness: after a concrete first run (all-success oracle, empty
cache, upload `uploads/video-1.mp4`, sport `cricket`) produced
`demoDecision` and cached it, the second run with the same base name and
sport returns the identical decision with zero model calls and zero
media-extraction calls. -/
theorem claim5_witness :
    processVideo demoEnv demoCache "uploads/video-1.mp4" "cricket" =
      (.ok demoDecision, demoCache, Effects.zero) :=
  claim5_cache_idempotent demoEnv [] demoCache "uploads/video-1.mp4" "cricket"
    "uploads/video-1.mp4" "cricket" demoDecision demoEffects rfl rfl (by decide)

/-- C1: evaluation of the pipeline at a failing input. With an oracle on
which key-frame extraction succeeds (producing the temporary directory
`temp/keyframes_a`) but the Stage 2 whole-video model call fails, the
pipeline propagates the error with `cleanedFrameDirs = []`: the catch
path never invokes `cleanupFrames`, so the already-extracted frame
directory of the request remains. The third conjunct shows the success
path of the very same request does clean the directory, so the omission
is specific to the error exit. -/
theorem claim1_no_cleanup_on_stage_failure :
    demoEnvVideoFail.extractKeyFrames "uploads/video-1.mp4" = .ok demoFramePaths ∧
    runPipelineStages demoEnvVideoFail "uploads/video-1.mp4" "cricket" =
      (.error "video model unavailable", ⟨3, 3, []⟩) ∧
    (runPipelineStages demoEnv "uploads/video-1.mp4" "cricket").2.cleanedFrameDirs =
      ["temp/keyframes_a", "temp/keyframes_a"] :=
  ⟨rfl, by decide, by decide⟩
